import Mathlib

/-
Verification development for the incremental asset transformation core
(packages/core/core/src/TransformerRunner.js and
packages/core/core/src/requests/AssetRequest.js).

The JavaScript sources are shallowly embedded as executable Lean
definitions.  External collaborators (the md5 utilities, the filesystem,
the plugin resolver returning transformer chains, JSON serialization of
environments) are parameters collected in a context record `Ctx`.
Transformer plugin hooks are modelled as pure Lean functions; plugin
handles are interned, so the reference equality used by the source is
modelled as equality of a stable plugin id.  Hook invocations and cache
accesses are recorded in an event trace threaded through every function,
and fallible code returns `Except Err`.  The recursion of `runPipeline`
(which in JavaScript need not terminate, since a transformer may keep
producing assets of new types) is made total with an explicit fuel
parameter; running out of fuel is the distinguished error `Err.outOfFuel`.
-/

deriving instance DecidableEq for Except

namespace Parcel

/-- Environments are opaque hashable equality keys (spec section 3). -/
abbrev Env := String

/-- ASTs are opaque to the core; owned by whichever transformer produced them. -/
abbrev AST := Nat

/-- Configs returned by a transformer's getConfig hook are opaque and are
passed unchanged to its other hooks. -/
abbrev Config := Nat

/-- Content is either an in-memory buffer or a lazy read stream on a path
(the dual representation produced by summarizeRequest). -/
inductive Blob where
  | buffer (data : String)
  | stream (filePath : String)
deriving DecidableEq

/-- Stats record of an asset: size in bytes and elapsed transformation time. -/
structure Stats where
  time : Nat
  size : Nat
deriving DecidableEq

/-- A connected file declared by a transformer: a path together with the
content hash recorded when the asset was produced. -/
structure FileRef where
  filePath : String
  hash : Option String
deriving DecidableEq

/-- The payload a transformer emits per produced asset
(after normalizeAssets has turned mutable asset views into plain records). -/
structure TransformerResult where
  type : String
  content : Blob
  ast : Option AST
  map : Option String
  dependencies : List String
  connectedFiles : List FileRef
  env : Env
  isIsolated : Bool
  meta : String
deriving DecidableEq

/-- An internal asset as handled by the transformer runner. -/
structure InternalAsset where
  idBase : String
  filePath : String
  type : String
  content : Blob
  hash : Option String
  ast : Option AST
  map : Option String
  env : Env
  stats : Stats
  sideEffects : Bool
  dependencies : List String
  connectedFiles : List FileRef
  meta : String
deriving DecidableEq

/-- A persisted cache entry (spec section 3): initialAssets is present only
when a postProcess step rewrote the pipeline's outputs. -/
structure CacheEntry where
  filePath : String
  env : Env
  hash : String
  assets : List InternalAsset
  initialAssets : Option (List InternalAsset)
deriving DecidableEq

/-- The persistent cache, keyed by request fingerprints.  set shadows the
previous binding for the key, get returns the most recent one. -/
abbrev CacheState := List (String × CacheEntry)

/-- The output of a generate hook: materialized code and an optional map. -/
structure GenerateOutput where
  code : String
  map : Option String
deriving DecidableEq

/-- A transformer plugin: any subset of the six hooks over a single source
type.  The id is the stable identity of the interned plugin handle. -/
structure Transformer where
  id : Nat
  getConfig : Option (InternalAsset → Config)
  canReuseAST : Option (AST → Bool)
  parse : Option (InternalAsset → Option Config → AST)
  transform : InternalAsset → Option Config → List TransformerResult
  generate : Option (InternalAsset → Option Config → GenerateOutput)
  postProcess : Option (List InternalAsset → Option Config → List TransformerResult)

/-- The lazily callable generate closure built by runTransform: the config
is already baked in; fn is absent when the transformer has no generate
hook, in which case calling it raises TransformerMissingGenerate. -/
structure GenFn where
  tid : Nat
  fn : Option (InternalAsset → GenerateOutput)

/-- An asset request as consumed by TransformerRunner.transform. -/
structure AssetRequest where
  filePath : String
  env : Env
  code : Option String
  sideEffects : Bool
deriving DecidableEq

/-- The process options recognized by the runner.  cache is tri-state as in
JavaScript: only an explicit false opts out of the cache lookup. -/
structure Options where
  cache : Option Bool
  cacheDir : String
  lockFile : Option String

/-- The external collaborators of the runner (spec section 6): hashing,
JSON serialization of environments, the filesystem (a path maps to the
chunk sequence its read stream yields), and the plugin resolver. -/
structure Ctx where
  md5String : String → String
  jsonStringifyEnv : Env → String
  files : String → List String
  getTransformers : String → List Transformer
  options : Options

/-- Observable events: one per transformer hook invocation plus the
persistent cache accesses. -/
inductive Ev where
  | getConfigHook (tid : Nat)
  | parseHook (tid : Nat)
  | transformHook (tid : Nat)
  | generateHook (tid : Nat)
  | postProcessHook (tid : Nat)
  | cacheGet (key : String)
  | cacheSet (key : String)
deriving DecidableEq

/-- Whether an event is a transformer hook invocation. -/
def Ev.isHook : Ev → Bool
  | .getConfigHook _ => true
  | .parseHook _ => true
  | .transformHook _ => true
  | .generateHook _ => true
  | .postProcessHook _ => true
  | .cacheGet _ => false
  | .cacheSet _ => false

/-- Errors of the embedded code.  transformerMissingGenerate is the typed
error thrown when an asset has an AST but no generate hook is available;
emptyPipeline models the out-of-bounds head access pipeline[0] on an empty
pipeline; outOfFuel is the artifact of making the recursion total. -/
inductive Err where
  | transformerMissingGenerate
  | emptyPipeline
  | outOfFuel
deriving DecidableEq

/-- The action runPipeline takes for one child result: reuse of cached
assets aside, it either finalizes the child, recurses on the pipeline
tail, or jumps to a recomputed pipeline. -/
inductive Decision where
  | finalizeChild
  | tailRecurse
  | jump
deriving DecidableEq

/-- The summary of a request: its content (buffered or streamed), the md5
hash of the complete contents, and the size in bytes. -/
structure Summary where
  content : Blob
  hash : String
  size : Nat
deriving DecidableEq

/-- What runTransform hands back to runPipeline: the (possibly mutated)
input asset, the normalized transformer results, the lazily callable
generate closure, and the transformer and config needed by postProcess. -/
structure TransformStep where
  input : InternalAsset
  results : List TransformerResult
  generate : GenFn
  transformer : Transformer
  config : Option Config

/-- The result of one runPipeline invocation. -/
structure PipelineResult where
  assets : List InternalAsset
  initialAssets : Option (List InternalAsset)
deriving DecidableEq

/-- Lookup in the persistent cache (external @parcel/cache, modelled as an
association list with shadowing). -/
def Cache.get : CacheState → String → Option CacheEntry
  | [], _ => none
  | (k, v) :: rest, key => if k = key then some v else Cache.get rest key

/-- Store into the persistent cache; the new binding shadows older ones. -/
def Cache.set (cs : CacheState) (key : String) (v : CacheEntry) : CacheState :=
  (key, v) :: cs

/-- Concatenation of the chunk sequence a read stream yields. -/
def strConcat : List String → String
  | [] => ""
  | c :: rest => c ++ strConcat rest

/-- Total byte length of a chunk sequence. -/
def totalLen : List String → Nat
  | [] => 0
  | c :: rest => c.length + totalLen rest

/-- md5FromFilePath from @parcel/utils: hash of the complete file contents. -/
def md5FromFilePath (ctx : Ctx) (p : String) : String :=
  ctx.md5String (strConcat (ctx.files p))

/-- checkConnectedFiles (TransformerRunner.js lines 347-353): re-hash every
declared connected file and succeed iff every recorded hash still matches. -/
def checkConnectedFiles (ctx : Ctx) (files : List FileRef) : Bool :=
  files.all fun f => decide (f.hash = some (md5FromFilePath ctx f.filePath))

/-- Modelled from the spec: InternalAsset.getConnectedFiles lives in
Asset.js, which is not part of the excerpted sources.  Per spec section 3
the connected files discovered by transformers are a field of the asset,
so the accessor returns that field. -/
def InternalAsset.getConnectedFiles (a : InternalAsset) : List FileRef :=
  a.connectedFiles

/-- checkCachedAssets (lines 337-345): every asset's connected files must
re-hash to their recorded hashes. -/
def checkCachedAssets (ctx : Ctx) (assets : List InternalAsset) : Bool :=
  assets.all fun a => checkConnectedFiles ctx a.getConnectedFiles

/-- reqCacheKey (lines 355-357): md5 of the file path concatenated with the
JSON serialization of the environment. -/
def reqCacheKey (ctx : Ctx) (req : AssetRequest) : String :=
  ctx.md5String (req.filePath ++ ctx.jsonStringifyEnv req.env)

/-- BUFFER_LIMIT (line 47): 5000000 bytes (the source comments it as 5mb). -/
def BUFFER_LIMIT : Nat := 5000000

/-- The TapStream logic of summarizeRequest (lines 374-389): per chunk, the
running size grows; while the content is still a buffer, the chunk is
appended unless the running size exceeds BUFFER_LIMIT, in which case the
buffer is thrown out and replaced with a fresh read stream on the path. -/
def tapStream (fp : String) : List String → Blob → Nat → Blob × Nat
  | [], content, size => (content, size)
  | buf :: rest, content, size =>
    let size' := size + buf.length
    let content' :=
      match content with
      | Blob.buffer b => if size' > BUFFER_LIMIT then Blob.stream fp else Blob.buffer (b ++ buf)
      | c => c
    tapStream fp rest content' size'

/-- summarizeRequest (lines 359-397): inline code is hashed and buffered
directly; a file is streamed through the tap above while its md5 is
computed over the complete contents. -/
def summarizeRequest (ctx : Ctx) (req : AssetRequest) : Summary :=
  match req.code with
  | some code => { content := Blob.buffer code, hash := ctx.md5String code, size := code.length }
  | none =>
    let chunks := ctx.files req.filePath
    let cs := tapStream req.filePath chunks (Blob.buffer "") 0
    { content := cs.1, hash := ctx.md5String (strConcat chunks), size := cs.2 }

/-- Index of the last dot of a basename that is not its first character
(Node's path.extname returns the empty string for dotfiles). -/
def lastDotPos (cs : List Char) : Option Nat :=
  (List.range cs.length).foldl
    (fun acc i => if cs.getD i ' ' = '.' ∧ 0 < i then some i else acc) none

/-- Node's path.extname, modelled for ordinary slash-separated paths: the
substring of the basename from its last non-leading dot, or empty. -/
def extname (p : String) : String :=
  let base := (p.splitOn "/").getLastD ""
  let cs := base.toList
  match lastDotPos cs with
  | some i => String.mk (cs.drop i)
  | none => ""

/-- The hypothetical file path for a changed-type result (lines 167-170):
input.filePath.slice(0, -extname.length) + "." + type.  JavaScript's
slice(0, -0) yields the empty string, so a path with no extension loses
its whole name; the quirk is kept. -/
def nextFilePath (input : InternalAsset) (newType : String) : String :=
  let extLen := (extname input.filePath).length
  (if extLen = 0 then ""
   else String.mk (input.filePath.toList.take (input.filePath.length - extLen))) ++
    "." ++ newType

/-- Lines 164-172: the pipeline a child result maps to.  It is the original
pipeline unless the result changed type, in which case the pipeline is
recomputed for a file path whose extension is the new type. -/
def nextPipelineFor (ctx : Ctx) (originalPipeline : List Transformer) (inputType : String)
    (input : InternalAsset) (r : TransformerResult) : List Transformer :=
  if r.type ≠ inputType then ctx.getTransformers (nextFilePath input r.type)
  else originalPipeline

/-- isEqualPipeline (lines 312-323): plugins are interned, so the source's
shallow element-wise reference comparison is equality of plugin ids at
equal length (the a === b fast path is subsumed). -/
def isEqualPipeline (a b : List Transformer) : Bool :=
  a.length == b.length && (List.zip a b).all fun pq => pq.1.id == pq.2.id

/-- The branch runPipeline takes for a child result that was not served
from the cache (lines 174-199): stay on the original pipeline when the
child's pipeline is shallow-equal to it (finalizing when exactly one
transformer remains, else recursing on the tail), otherwise jump. -/
def childDecision (ctx : Ctx) (originalPipeline pipeline : List Transformer)
    (inputType : String) (input : InternalAsset) (r : TransformerResult) : Decision :=
  let nextPipeline := nextPipelineFor ctx originalPipeline inputType input r
  if isEqualPipeline originalPipeline nextPipeline then
    if pipeline.length = 1 then Decision.finalizeChild else Decision.tailRecurse
  else Decision.jump

/-- Calling the generate closure built by runTransform (lines 272-285):
invoke the transformer's generate hook if it exists, otherwise throw the
TransformerMissingGenerate error. -/
def callGenerate (g : GenFn) (a : InternalAsset) (tr : List Ev) :
    Except Err GenerateOutput × List Ev :=
  match g.fn with
  | some f => (Except.ok (f a), tr ++ [Ev.generateHook g.tid])
  | none => (Except.error Err.transformerMissingGenerate, tr)

/-- Config load phase of runTransform (lines 226-234). -/
def loadConfig (t : Transformer) (input : InternalAsset) (tr : List Ev) :
    Option Config × List Ev :=
  match t.getConfig with
  | some gc => (some (gc input), tr ++ [Ev.getConfigHook t.id])
  | none => (none, tr)

/-- AST reconciliation phase of runTransform (lines 236-248): if the input
carries an AST the current transformer cannot reuse and a previousGenerate
exists, materialize code and map through previousGenerate, overwrite
content and map, and drop the AST. -/
def reconcileAST (t : Transformer) (previousGenerate : Option GenFn)
    (input : InternalAsset) (tr : List Ev) : Except Err InternalAsset × List Ev :=
  match input.ast, previousGenerate with
  | some a, some g =>
    if (match t.canReuseAST with | some f => f a | none => false) = true then
      (Except.ok input, tr)
    else
      match callGenerate g input tr with
      | (Except.error e, tr') => (Except.error e, tr')
      | (Except.ok out, tr') =>
        (Except.ok { input with content := Blob.buffer out.code, map := out.map, ast := none }, tr')
  | _, _ => (Except.ok input, tr)

/-- Parse phase of runTransform (lines 250-258): parse only when no AST is
available and the transformer exposes a parse hook. -/
def parseIfNeeded (t : Transformer) (config : Option Config) (input : InternalAsset)
    (tr : List Ev) : InternalAsset × List Ev :=
  match input.ast, t.parse with
  | none, some p => ({ input with ast := some (p input config) }, tr ++ [Ev.parseHook t.id])
  | _, _ => (input, tr)

/-- runTransform (lines 211-309): config load, AST reconciliation, parse,
then the transform hook; the generate closure for later lazy use bakes in
the transformer and config, and the transformer, config and mutated input
are kept for the later postProcess phase.  The transform hook is modelled
as returning already-normalized results. -/
def runTransform (input : InternalAsset) (t : Transformer) (previousGenerate : Option GenFn)
    (tr : List Ev) : Except Err TransformStep × List Ev :=
  let ctr := loadConfig t input tr
  match reconcileAST t previousGenerate input ctr.2 with
  | (Except.error e, tr') => (Except.error e, tr')
  | (Except.ok input1, tr') =>
    let ptr := parseIfNeeded t ctr.1 input1 tr'
    let results := t.transform ptr.1 ctr.1
    (Except.ok
      { input := ptr.1, results := results,
        generate := { tid := t.id, fn := t.generate.map fun gn a => gn a ctr.1 },
        transformer := t, config := ctr.1 },
      ptr.2 ++ [Ev.transformHook t.id])

/-- Modelled from the spec: InternalAsset.createChildAsset lives in
Asset.js, which is not part of the excerpted sources.  Per spec section
4.5(c) each result becomes a child asset of the input: it inherits the
input's idBase, carries the declared type, and has its own content hash. -/
def createChildAsset (ctx : Ctx) (input : InternalAsset) (r : TransformerResult) :
    InternalAsset :=
  { idBase := input.idBase
    filePath := input.filePath
    type := r.type
    content := r.content
    hash := some (match r.content with
      | Blob.buffer s => ctx.md5String s
      | Blob.stream p => md5FromFilePath ctx p)
    ast := r.ast
    map := r.map
    env := r.env
    stats := { time := 0, size := match r.content with
      | Blob.buffer s => s.length
      | Blob.stream p => totalLen (ctx.files p) }
    sideEffects := input.sideEffects
    dependencies := r.dependencies
    connectedFiles := r.connectedFiles
    meta := r.meta }

/-- finalize (lines 325-335): if the asset still carries an AST, call the
current generate closure to materialize content and map. -/
def finalize (asset : InternalAsset) (generate : GenFn) (tr : List Ev) :
    Except Err InternalAsset × List Ev :=
  match asset.ast with
  | some _ =>
    match callGenerate generate asset tr with
    | (Except.error e, tr') => (Except.error e, tr')
    | (Except.ok out, tr') =>
      (Except.ok { asset with content := Blob.buffer out.code, map := out.map }, tr')
  | none => (Except.ok asset, tr)

/-- The postProcess closure built by runTransform (lines 287-306), applied
at the end of runPipeline: if the transformer has the hook, run it on the
collected assets and turn its results into child assets of the (mutated)
input; otherwise yield none. -/
def applyPostProcess (ctx : Ctx) (step : TransformStep) (assets : List InternalAsset)
    (tr : List Ev) : Option (List InternalAsset) × List Ev :=
  match step.transformer.postProcess with
  | some pp =>
    (some (((pp assets step.config).map (createChildAsset ctx step.input))),
      tr ++ [Ev.postProcessHook step.transformer.id])
  | none => (none, tr)

/-- The per-result loop of runPipeline (lines 146-200), parametrized by the
recursive pipeline runner rp.  For each result: create the child asset;
if the cache entry carries assets with a matching hash whose connected
files still check out, reuse them; otherwise finalize, recurse on the
pipeline tail, or jump to the recomputed pipeline, as childDecision says.
Nested runs receive no cache entry and the current generate closure as
previousGenerate, exactly as in the source. -/
def runChildren
    (rp : InternalAsset → List Transformer → List Transformer → Option CacheEntry →
      Option GenFn → List Ev → Except Err PipelineResult × List Ev)
    (ctx : Ctx) (input : InternalAsset) (inputType : String)
    (pipeline originalPipeline : List Transformer) (cacheEntry : Option CacheEntry)
    (gen : GenFn) : List TransformerResult → List Ev →
    Except Err (List InternalAsset) × List Ev
  | [], tr => (Except.ok [], tr)
  | r :: rs, tr =>
    let asset := createChildAsset ctx input r
    let cachedHit : Option (List InternalAsset) :=
      match cacheEntry with
      | some entry =>
        let cachedAssets := (entry.initialAssets.getD entry.assets).filter
          fun child => decide (child.hash ≠ none ∧ child.hash = asset.hash)
        if 0 < cachedAssets.length ∧ checkCachedAssets ctx cachedAssets = true then
          some cachedAssets
        else none
      | none => none
    match cachedHit with
    | some cachedAssets =>
      match runChildren rp ctx input inputType pipeline originalPipeline cacheEntry gen rs tr with
      | (Except.error e, tr') => (Except.error e, tr')
      | (Except.ok assets, tr') => (Except.ok (cachedAssets ++ assets), tr')
    | none =>
      match childDecision ctx originalPipeline pipeline inputType input r with
      | Decision.finalizeChild =>
        match finalize asset gen tr with
        | (Except.error e, tr') => (Except.error e, tr')
        | (Except.ok fin, tr') =>
          match runChildren rp ctx input inputType pipeline originalPipeline cacheEntry gen rs tr' with
          | (Except.error e, tr'') => (Except.error e, tr'')
          | (Except.ok assets, tr'') => (Except.ok (fin :: assets), tr'')
      | Decision.tailRecurse =>
        match rp asset pipeline.tail originalPipeline none (some gen) tr with
        | (Except.error e, tr') => (Except.error e, tr')
        | (Except.ok res, tr') =>
          match runChildren rp ctx input inputType pipeline originalPipeline cacheEntry gen rs tr' with
          | (Except.error e, tr'') => (Except.error e, tr'')
          | (Except.ok assets, tr'') => (Except.ok (res.assets ++ assets), tr'')
      | Decision.jump =>
        let nextPipeline := nextPipelineFor ctx originalPipeline inputType input r
        match rp asset nextPipeline nextPipeline none (some gen) tr with
        | (Except.error e, tr') => (Except.error e, tr')
        | (Except.ok res, tr') =>
          match runChildren rp ctx input inputType pipeline originalPipeline cacheEntry gen rs tr' with
          | (Except.error e, tr'') => (Except.error e, tr'')
          | (Except.ok assets, tr'') => (Except.ok (res.assets ++ assets), tr'')

/-- runPipeline (lines 127-209): run the head transformer, process every
result through the per-result loop, then apply the postProcess phase: a
non-null postProcess output replaces the assets and the pre-postProcess
set is kept as initialAssets.  Fuel makes the (possibly divergent)
recursion total; the head access on an empty pipeline is the out-of-bounds
error of the source. -/
def runPipeline (ctx : Ctx) : Nat → InternalAsset → List Transformer → List Transformer →
    Option CacheEntry → Option GenFn → List Ev → Except Err PipelineResult × List Ev
  | 0, _, _, _, _, _, tr => (Except.error Err.outOfFuel, tr)
  | _ + 1, _, [], _, _, _, tr => (Except.error Err.emptyPipeline, tr)
  | fuel + 1, input, t :: rest, originalPipeline, cacheEntry, previousGenerate, tr =>
    let inputType := input.type
    match runTransform input t previousGenerate tr with
    | (Except.error e, tr') => (Except.error e, tr')
    | (Except.ok step, tr') =>
      match runChildren (runPipeline ctx fuel) ctx step.input inputType (t :: rest)
          originalPipeline cacheEntry step.generate step.results tr' with
      | (Except.error e, tr'') => (Except.error e, tr'')
      | (Except.ok assets, tr'') =>
        let post := applyPostProcess ctx step assets tr''
        (Except.ok
          { assets := post.1.getD assets,
            initialAssets := match post.1 with | some _ => some assets | none => none },
          post.2)

/-- The input asset built by transform (lines 87-103).  JavaScript decides
idBase by the truthiness of req.code, so empty inline code falls back to
the file path; the quirk is kept.  Asset.js is not excerpted: the
constructor is modelled per spec section 3 as storing the fields, with
empty discovered-dependency sets. -/
def mkInputAsset (req : AssetRequest) (s : Summary) : InternalAsset :=
  { idBase := match req.code with
      | some c => if c = "" then req.filePath else s.hash
      | none => req.filePath
    filePath := req.filePath
    type := (extname req.filePath).drop 1
    content := s.content
    hash := some s.hash
    ast := none
    map := none
    env := req.env
    stats := { time := 0, size := s.size }
    sideEffects := req.sideEffects
    dependencies := []
    connectedFiles := []
    meta := "" }

/-- The no-valid-cache-hit continuation of transform (lines 87-124): build
the input asset, resolve the pipeline for the request's path, run it
(passing along the possibly stale cache entry for per-child reuse), then
persist the new entry under the request fingerprint.  Committing the
assets to the external asset store is outside the model. -/
def transformFresh (ctx : Ctx) (fuel : Nat) (cache : CacheState) (req : AssetRequest)
    (summary : Summary) (cacheEntry : Option CacheEntry) (tr : List Ev) :
    Except Err (CacheEntry × CacheState) × List Ev :=
  let input := mkInputAsset req summary
  let pipeline := ctx.getTransformers req.filePath
  match runPipeline ctx fuel input pipeline pipeline cacheEntry none tr with
  | (Except.error e, tr') => (Except.error e, tr')
  | (Except.ok pr, tr') =>
    let entry : CacheEntry :=
      { filePath := req.filePath, env := req.env, hash := summary.hash,
        assets := pr.assets, initialAssets := pr.initialAssets }
    (Except.ok (entry, Cache.set cache (reqCacheKey ctx req) entry),
      tr' ++ [Ev.cacheSet (reqCacheKey ctx req)])

/-- TransformerRunner.transform (lines 63-125): look the request up in the
cache unless the options opt out or the request carries inline code; if
the retrieved entry's hash matches the re-summarized content and its
assets' connected files still check out, return it; otherwise run the
pipeline afresh and persist the result. -/
def transform (ctx : Ctx) (fuel : Nat) (cache : CacheState) (req : AssetRequest)
    (tr : List Ev) : Except Err (CacheEntry × CacheState) × List Ev :=
  let summary := summarizeRequest ctx req
  if ctx.options.cache ≠ some false ∧ req.code = none then
    match Cache.get cache (reqCacheKey ctx req) with
    | some e =>
      let tr' := tr ++ [Ev.cacheGet (reqCacheKey ctx req)]
      if e.hash = summary.hash ∧ checkCachedAssets ctx e.assets = true then
        (Except.ok (e, cache), tr')
      else transformFresh ctx fuel cache req summary (some e) tr'
    | none =>
      transformFresh ctx fuel cache req summary none (tr ++ [Ev.cacheGet (reqCacheKey ctx req)])
  else transformFresh ctx fuel cache req summary none tr

namespace AssetReq

/-- The input of an asset_request (requests/AssetRequest.js): optionsRef is
an opaque handle to shared process options, excluded from identity. -/
structure AssetRequestInput where
  filePath : String
  env : Env
  code : Option String
  sideEffects : Bool
  optionsRef : Nat
deriving DecidableEq

/-- The request payload handed to the worker farm: the input without its
optionsRef field (line 46). -/
structure HashInput where
  filePath : String
  env : Env
  code : Option String
  sideEffects : Bool
deriving DecidableEq

/-- Dropping optionsRef from the input (lines 39 and 46). -/
def requestOfInput (i : AssetRequestInput) : HashInput :=
  { filePath := i.filePath, env := i.env, code := i.code, sideEffects := i.sideEffects }

/-- getId (lines 37-41): the namespaced content-derived request identity. -/
def getId (md5Object : HashInput → String) (input : AssetRequestInput) : String :=
  "asset_request:" ++ md5Object (requestOfInput input)

/-- An asset as returned by the worker farm's runTransform handle; only the
fields the driver touches are modelled. -/
structure FarmAsset where
  id : String
  stats : Stats
  includedFiles : List String
deriving DecidableEq

/-- The result attached to a config request returned by the farm. -/
structure ConfigRequestResult where
  resolvedPath : Option String
  includedFiles : List String
  watchGlob : Option String
  shouldInvalidateOnStartup : Bool
  devDeps : List String
deriving DecidableEq

/-- A config request returned by the farm: an opaque request descriptor
paired with its result. -/
structure ConfigRequest where
  request : String
  result : ConfigRequestResult
deriving DecidableEq

/-- What the farm's runTransform handle yields (line 50). -/
structure FarmOutput where
  assets : List FarmAsset
  configRequests : List ConfigRequest
deriving DecidableEq

/-- The invalidation edges registered through the request-tracker api,
modelled as an append-only journal. -/
structure ApiState where
  fileUpdate : List String
  fileDelete : List String
  fileCreate : List String
  startup : Bool
deriving DecidableEq

/-- The empty journal. -/
def ApiState.empty : ApiState :=
  { fileUpdate := [], fileDelete := [], fileCreate := [], startup := false }

/-- api.invalidateOnFileUpdate. -/
def regUpdate (st : ApiState) (p : String) : ApiState :=
  { st with fileUpdate := st.fileUpdate ++ [p] }

/-- api.invalidateOnFileDelete. -/
def regDelete (st : ApiState) (p : String) : ApiState :=
  { st with fileDelete := st.fileDelete ++ [p] }

/-- api.invalidateOnFileCreate. -/
def regCreate (st : ApiState) (p : String) : ApiState :=
  { st with fileCreate := st.fileCreate ++ [p] }

/-- The external collaborators of the asset-request driver: the
filesystem's realpath, the config sub-request's cache path, the worker
farm handle, the configured lock file, and the two wall-clock readings
Date.now() yields at the start and after the farm call. -/
structure RunEnv where
  realpath : String → String
  configCachePath : String
  runTransformHandle : String → Nat → HashInput → FarmOutput
  lockFile : Option String
  startTime : Nat
  endTime : Nat

/-- The run body of a child config_request (lines 74-98).  The source
registers invalidateOnFileUpdate twice per included file (lines 87-88);
the duplication is kept as written. -/
def runConfigRequest (res : ConfigRequestResult) (st : ApiState) : ApiState :=
  let st := match res.resolvedPath with
    | some p => regDelete (regUpdate st p) p
    | none => st
  let st := res.includedFiles.foldl (fun st p => regUpdate (regUpdate st p) p) st
  let st := match res.watchGlob with
    | some g => regCreate st g
    | none => st
  if res.shouldInvalidateOnStartup then { st with startup := true } else st

/-- The run body of a child version_request (lines 112-116): invalidate on
lock-file update when a lock file is configured. -/
def runVersionRequest (lockFile : Option String) (st : ApiState) : ApiState :=
  match lockFile with
  | some lf => regUpdate st lf
  | none => st

/-- run (requests/AssetRequest.js lines 43-123): register the realpath
update edge, take the start time, hand the optionsRef-stripped request to
the farm, stamp every returned asset's stats.time with the elapsed wall
time, register per-asset includedFiles edges, then execute the child
config and dep-version requests.  The request-tracker's memoization of
child requests is not excerpted; child run bodies are executed inline. -/
def run (renv : RunEnv) (input : AssetRequestInput) : List FarmAsset × ApiState :=
  let st := regUpdate ApiState.empty (renv.realpath input.filePath)
  let start := renv.startTime
  let request := requestOfInput input
  let out := renv.runTransformHandle renv.configCachePath input.optionsRef request
  let time := renv.endTime - start
  let assets := out.assets.map fun a => { a with stats := { a.stats with time := time } }
  let st := assets.foldl
    (fun st a => a.includedFiles.foldl (fun st p => regDelete (regUpdate st p) p) st) st
  let st := out.configRequests.foldl
    (fun st cr =>
      let st := runConfigRequest cr.result st
      cr.result.devDeps.foldl (fun st _ => runVersionRequest renv.lockFile st) st)
    st
  (assets, st)

end AssetReq

/-! Concrete fixtures used by the witnesses and counterexamples. -/

/-- A trivial transformer with no optional hooks whose transform hook emits
no results. -/
def tNil : Transformer :=
  { id := 1, getConfig := none, canReuseAST := none, parse := none,
    transform := fun _ _ => [], generate := none, postProcess := none }

/-- A transformer that re-emits its input's content as a js result. -/
def tJs : Transformer :=
  { id := 2, getConfig := none, canReuseAST := none, parse := none,
    transform := fun a _ =>
      [{ type := "js", content := a.content, ast := none, map := none,
         dependencies := [], connectedFiles := [], env := a.env,
         isIsolated := false, meta := "" }],
    generate := none, postProcess := none }

/-- Options with the cache neither enabled nor disabled explicitly. -/
def optsDefault : Options :=
  { cache := none, cacheDir := "/cache", lockFile := none }

/-- A small context: identity hashing, one-chunk files, and a single
trivial transformer for every path. -/
def ctxNil : Ctx :=
  { md5String := fun s => s
    jsonStringifyEnv := fun e => e
    files := fun _ => ["x=1"]
    getTransformers := fun _ => [tNil]
    options := optsDefault }

/-- A context whose resolver returns the re-emitting transformer. -/
def ctxJs : Ctx :=
  { md5String := fun s => s
    jsonStringifyEnv := fun e => e
    files := fun _ => ["x=1"]
    getTransformers := fun _ => [tJs]
    options := optsDefault }

/-- A file request for a.js in environment E. -/
def reqFile : AssetRequest :=
  { filePath := "a.js", env := "E", code := none, sideEffects := true }

/-- An inline-code request at the same path. -/
def reqInline : AssetRequest :=
  { filePath := "a.js", env := "E", code := some "y=2", sideEffects := true }

/-- A js-typed transformer result fixture. -/
def resJs : TransformerResult :=
  { type := "js", content := Blob.buffer "x=1", ast := none, map := none,
    dependencies := [], connectedFiles := [], env := "E", isIsolated := false, meta := "" }

/-- A generate closure fixture whose hook exists. -/
def genSome : GenFn :=
  { tid := 9, fn := some fun _ => { code := "gen", map := some "m" } }

/-- A generate closure fixture with no generate hook available. -/
def genNone : GenFn :=
  { tid := 5, fn := none }

/-- An asset fixture that carries an AST. -/
def assetAst : InternalAsset :=
  { idBase := "a.js", filePath := "a.js", type := "js", content := Blob.buffer "x=1",
    hash := some "x=1", ast := some 7, map := none, env := "E",
    stats := { time := 0, size := 3 }, sideEffects := true,
    dependencies := [], connectedFiles := [], meta := "" }

/-- A transformer with a parse hook, which cannot reuse ASTs. -/
def tParse : Transformer :=
  { id := 3, getConfig := none, canReuseAST := none,
    parse := some fun _ _ => 42,
    transform := fun _ _ => [], generate := none, postProcess := none }

/-- A transformer that can always reuse ASTs. -/
def tReuse : Transformer :=
  { id := 4, getConfig := none, canReuseAST := some fun _ => true,
    parse := some fun _ _ => 42,
    transform := fun _ _ => [], generate := none, postProcess := none }

/-- A cached asset whose single connected file is b.txt with hash dep. -/
def cachedAsset : InternalAsset :=
  { idBase := "a.js", filePath := "a.js", type := "js", content := Blob.buffer "x=1",
    hash := some "x=1", ast := none, map := none, env := "E",
    stats := { time := 0, size := 3 }, sideEffects := true,
    dependencies := [], connectedFiles := [{ filePath := "b.txt", hash := some "dep" }],
    meta := "" }

/-- A cache entry fixture for reqFile whose hash matches the file contents
of ctxHit. -/
def entryHit : CacheEntry :=
  { filePath := "a.js", env := "E", hash := "x=1", assets := [cachedAsset],
    initialAssets := none }

/-- A context in which reqFile hits the cache: a.js reads as x=1 and the
connected file b.txt still hashes to dep. -/
def ctxHit : Ctx :=
  { md5String := fun s => s
    jsonStringifyEnv := fun e => e
    files := fun p => if p = "b.txt" then ["dep"] else ["x=1"]
    getTransformers := fun _ => [tNil]
    options := optsDefault }

/-- A cache state holding entryHit under reqFile's fingerprint. -/
def cacheHitState : CacheState := [("a.jsE", entryHit)]

/-- A 5242880-byte (5 MiB) file content chunk. -/
def bigChunk : String := String.mk (List.replicate 5242880 'x')

/-- A context whose filesystem serves the 5 MiB chunk for every path. -/
def ctxBig : Ctx :=
  { md5String := fun s => s
    jsonStringifyEnv := fun e => e
    files := fun _ => [bigChunk]
    getTransformers := fun _ => [tNil]
    options := optsDefault }

/-- A file request for the 5 MiB file. -/
def reqBig : AssetRequest :=
  { filePath := "big.bin", env := "E", code := none, sideEffects := false }

/-- The input asset of reqFile under ctxNil. -/
def inputNilFix : InternalAsset := mkInputAsset reqFile (summarizeRequest ctxNil reqFile)

/-- The cache entry the inline request reqInline produces under ctxNil. -/
def entryInlineNil : CacheEntry :=
  { filePath := "a.js", env := "E", hash := "y=2", assets := [], initialAssets := none }

/-- The cache state after the inline request persisted its entry. -/
def cacheAfterInline : CacheState := [("a.jsE", entryInlineNil)]

/-- A farm asset fixture. -/
def faFix : AssetReq.FarmAsset :=
  { id := "a1", stats := { time := 0, size := 3 }, includedFiles := ["inc.js"] }

/-- A driver environment fixture: the farm returns one asset and no config
requests; the clock reads 10 and then 25. -/
def renvFix : AssetReq.RunEnv :=
  { realpath := fun p => p
    configCachePath := "cc"
    runTransformHandle := fun _ _ _ => { assets := [faFix], configRequests := [] }
    lockFile := none
    startTime := 10
    endTime := 25 }

/-- An asset-request-input fixture for the driver. -/
def inputFix : AssetReq.AssetRequestInput :=
  { filePath := "a.js", env := "E", code := none, sideEffects := true, optionsRef := 77 }

/-- Trace extension: the second trace extends the first, and none of the
appended events is a cache lookup.  Every runner function below the
top-level transform satisfies this relation between its input and output
traces. -/
def TraceExt (tr tr' : List Ev) : Prop :=
  ∃ δ, tr' = tr ++ δ ∧ ∀ k, Ev.cacheGet k ∉ δ

/-! Helper lemmas. -/

/-- Zipping a pipeline with itself passes the element-wise id comparison. -/
theorem zip_self_all_id (p : List Transformer) :
    (List.zip p p).all (fun pq => pq.1.id == pq.2.id) = true := by
  induction p with
  | nil => rfl
  | cons t ts ih => simpa using ih

/-- A pipeline is shallow-equal to itself. -/
theorem isEqualPipeline_refl (p : List Transformer) : isEqualPipeline p p = true := by
  simp [isEqualPipeline, zip_self_all_id]

/-- Once the tap has switched to a stream, it only accumulates size. -/
theorem tapStream_stream (fp q : String) :
    ∀ (chunks : List String) (n : Nat),
      tapStream fp chunks (Blob.stream q) n = (Blob.stream q, n + totalLen chunks) := by
  intro chunks
  induction chunks with
  | nil => intro n; simp [tapStream, totalLen]
  | cons c cs ih => intro n; simp only [tapStream, totalLen]; rw [ih]; ring_nf

/-- While the tap is still buffering with a running size within the limit,
the final content is the full buffered concatenation iff the total stays
within BUFFER_LIMIT, and the final size is the total size. -/
theorem tapStream_buffer (fp : String) :
    ∀ (chunks : List String) (b : String) (n : Nat), n ≤ BUFFER_LIMIT →
      tapStream fp chunks (Blob.buffer b) n =
        (if n + totalLen chunks ≤ BUFFER_LIMIT then Blob.buffer (b ++ strConcat chunks)
         else Blob.stream fp,
         n + totalLen chunks) := by
  intro chunks
  induction chunks with
  | nil =>
    intro b n hn
    simp [tapStream, totalLen, strConcat, hn, String.append_empty]
  | cons c cs ih =>
    intro b n hn
    simp only [tapStream, totalLen]
    by_cases hc : BUFFER_LIMIT < n + c.length
    · rw [if_pos hc, tapStream_stream]
      have hcond : ¬(n + (c.length + totalLen cs) ≤ BUFFER_LIMIT) := by omega
      rw [if_neg hcond]
      exact Prod.ext rfl (by omega)
    · rw [if_neg hc]
      rw [ih (b ++ c) (n + c.length) (by omega)]
      have hcond : (n + c.length + totalLen cs ≤ BUFFER_LIMIT) ↔
          (n + (c.length + totalLen cs) ≤ BUFFER_LIMIT) := by omega
      rw [if_congr hcond (by rw [String.append_assoc]) rfl]
      exact Prod.ext rfl (by omega)

/-- Summary of a file request: the hash covers the complete contents, the
size is the total byte length, and the content is buffered exactly when
the total stays within BUFFER_LIMIT. -/
theorem summarizeRequest_file (ctx : Ctx) (req : AssetRequest) (h : req.code = none) :
    summarizeRequest ctx req =
      { content :=
          if totalLen (ctx.files req.filePath) ≤ BUFFER_LIMIT then
            Blob.buffer (strConcat (ctx.files req.filePath))
          else Blob.stream req.filePath,
        hash := ctx.md5String (strConcat (ctx.files req.filePath)),
        size := totalLen (ctx.files req.filePath) } := by
  simp only [summarizeRequest, h]
  rw [tapStream_buffer req.filePath (ctx.files req.filePath) "" 0 (Nat.zero_le _)]
  simp [String.empty_append]

/-- The only error callGenerate can produce is the missing-generate one. -/
theorem callGenerate_error (g : GenFn) (a : InternalAsset) (tr : List Ev) (e : Err)
    (h : (callGenerate g a tr).1 = Except.error e) : e = Err.transformerMissingGenerate := by
  unfold callGenerate at h
  cases hg : g.fn with
  | none => rw [hg] at h; exact (Except.error.injEq _ _ ▸ h).symm
  | some f => rw [hg] at h; simp at h

/-- The only error reconcileAST can produce is the missing-generate one. -/
theorem reconcileAST_error (t : Transformer) (pg : Option GenFn) (input : InternalAsset)
    (tr : List Ev) (e : Err) (h : (reconcileAST t pg input tr).1 = Except.error e) :
    e = Err.transformerMissingGenerate := by
  unfold reconcileAST at h
  split at h
  · split at h
    · simp at h
    · split at h
      · rename_i e' tr' heq
        have he : e' = e := by simpa using h
        rw [← he]
        exact callGenerate_error _ _ _ e' (by rw [heq])
      · simp at h
  · simp at h

/-- The only error runTransform can produce is the missing-generate one. -/
theorem runTransform_error (input : InternalAsset) (t : Transformer) (pg : Option GenFn)
    (tr : List Ev) (e : Err) (h : (runTransform input t pg tr).1 = Except.error e) :
    e = Err.transformerMissingGenerate := by
  simp only [runTransform] at h
  split at h
  · rename_i e' tr' heq
    have he : e' = e := by simpa using h
    rw [← he]
    exact reconcileAST_error _ _ _ _ e' (by rw [heq])
  · simp at h

/-- The only error finalize can produce is the missing-generate one. -/
theorem finalize_error (asset : InternalAsset) (g : GenFn) (tr : List Ev) (e : Err)
    (h : (finalize asset g tr).1 = Except.error e) : e = Err.transformerMissingGenerate := by
  unfold finalize at h
  split at h
  · split at h
    · rename_i e' tr' heq
      have he : e' = e := by simpa using h
      rw [← he]
      exact callGenerate_error _ _ _ e' (by rw [heq])
    · simp at h
  · simp at h

/-- A tail-recursion decision implies the remaining pipeline is longer than
one transformer. -/
theorem childDecision_tailRecurse_length {ctx : Ctx} {o p : List Transformer} {ty : String}
    {i : InternalAsset} {r : TransformerResult}
    (h : childDecision ctx o p ty i r = Decision.tailRecurse) : p.length ≠ 1 := by
  simp only [childDecision] at h
  by_cases hiso : isEqualPipeline o (nextPipelineFor ctx o ty i r) = true
  · rw [if_pos hiso] at h
    by_cases hlen : p.length = 1
    · rw [if_pos hlen] at h; simp at h
    · exact hlen
  · rw [if_neg hiso] at h; simp at h

/-- A jump decision leads to a pipeline freshly returned by the resolver,
hence non-empty whenever the resolver never returns an empty chain. -/
theorem childDecision_jump_next {ctx : Ctx} {o p : List Transformer} {ty : String}
    {i : InternalAsset} {r : TransformerResult}
    (h : childDecision ctx o p ty i r = Decision.jump)
    (hres : ∀ q, ctx.getTransformers q ≠ []) : nextPipelineFor ctx o ty i r ≠ [] := by
  simp only [childDecision] at h
  by_cases hiso : isEqualPipeline o (nextPipelineFor ctx o ty i r) = true
  · rw [if_pos hiso] at h
    by_cases hlen : p.length = 1
    · rw [if_pos hlen] at h; simp at h
    · rw [if_neg hlen] at h; simp at h
  · unfold nextPipelineFor at hiso ⊢
    by_cases hty : r.type ≠ ty
    · rw [if_pos hty]; exact hres _
    · rw [if_neg hty] at hiso
      exact absurd (isEqualPipeline_refl o) hiso

/-- The per-result loop never produces the empty-pipeline error when the
current pipeline is non-empty, the recursive runner it is given never does
so on non-empty pipelines, and the resolver never returns an empty
chain. -/
theorem runChildren_no_empty
    (rp : InternalAsset → List Transformer → List Transformer → Option CacheEntry →
      Option GenFn → List Ev → Except Err PipelineResult × List Ev)
    (ctx : Ctx)
    (hrp : ∀ inp p o ce pg tr, p ≠ [] → (rp inp p o ce pg tr).1 ≠ Except.error Err.emptyPipeline)
    (hres : ∀ q, ctx.getTransformers q ≠ [])
    (input : InternalAsset) (inputType : String) (pipeline originalPipeline : List Transformer)
    (cacheEntry : Option CacheEntry) (gen : GenFn) (hp : pipeline ≠ []) :
    ∀ (results : List TransformerResult) (tr : List Ev),
      (runChildren rp ctx input inputType pipeline originalPipeline cacheEntry gen
        results tr).1 ≠ Except.error Err.emptyPipeline := by
  intro results
  induction results with
  | nil => intro tr h; simp [runChildren] at h
  | cons r rs ih =>
    intro tr h
    simp only [runChildren] at h
    split at h
    · -- reuse of cached assets
      split at h
      · rename_i e tr' heq
        have he : e = Err.emptyPipeline := by simpa using h
        exact absurd (by rw [heq, he]) (ih tr)
      · simp at h
    · -- no cached reuse: branch on the decision
      split at h
      · -- finalize
        split at h
        · rename_i e tr' heq
          have htmg := finalize_error _ _ _ e (by rw [heq])
          have he : e = Err.emptyPipeline := by simpa using h
          rw [htmg] at he
          cases he
        · split at h
          · rename_i e tr'' heq
            have he : e = Err.emptyPipeline := by simpa using h
            exact absurd (by rw [heq, he]) (ih _)
          · simp at h
      · -- tail recursion
        rename_i hdec
        have htail : pipeline.tail ≠ [] := by
          have hlen := childDecision_tailRecurse_length hdec
          cases pipeline with
          | nil => exact absurd rfl hp
          | cons x xs =>
            cases xs with
            | nil => exact absurd rfl hlen
            | cons y ys => simp
        split at h
        · rename_i e tr' heq
          have he : e = Err.emptyPipeline := by simpa using h
          exact absurd (by rw [heq, he]) (hrp _ _ _ _ _ _ htail)
        · split at h
          · rename_i e tr'' heq
            have he : e = Err.emptyPipeline := by simpa using h
            exact absurd (by rw [heq, he]) (ih _)
          · simp at h
      · -- jump
        rename_i hdec
        have hnext := childDecision_jump_next hdec hres
        split at h
        · rename_i e tr' heq
          have he : e = Err.emptyPipeline := by simpa using h
          exact absurd (by rw [heq, he]) (hrp _ _ _ _ _ _ hnext)
        · split at h
          · rename_i e tr'' heq
            have he : e = Err.emptyPipeline := by simpa using h
            exact absurd (by rw [heq, he]) (ih _)
          · simp at h

/-- runPipeline never produces the empty-pipeline error on a non-empty
pipeline when the resolver never returns an empty chain. -/
theorem runPipeline_no_empty (ctx : Ctx) (hres : ∀ q, ctx.getTransformers q ≠ []) :
    ∀ (fuel : Nat) (input : InternalAsset) (pipeline originalPipeline : List Transformer)
      (cacheEntry : Option CacheEntry) (previousGenerate : Option GenFn) (tr : List Ev),
      pipeline ≠ [] →
      (runPipeline ctx fuel input pipeline originalPipeline cacheEntry previousGenerate
        tr).1 ≠ Except.error Err.emptyPipeline := by
  intro fuel
  induction fuel with
  | zero => intro input pipeline orig ce pg tr hp h; simp [runPipeline] at h
  | succ fuel ih =>
    intro input pipeline orig ce pg tr hp h
    cases pipeline with
    | nil => exact hp rfl
    | cons t rest =>
      simp only [runPipeline] at h
      split at h
      · rename_i e tr' heq
        have htmg := runTransform_error _ _ _ _ e (by rw [heq])
        have he : e = Err.emptyPipeline := by simpa using h
        rw [htmg] at he
        cases he
      · split at h
        · rename_i e tr'' heq
          have he : e = Err.emptyPipeline := by simpa using h
          exact absurd (by rw [heq, he])
            (runChildren_no_empty _ ctx (fun inp p o ce' pg' tr0 hne => ih inp p o ce' pg' tr0 hne)
              hres _ _ _ _ _ _ (by simp) _ _)
        · simp at h

/-- Trace extension is reflexive. -/
theorem traceExt_refl (tr : List Ev) : TraceExt tr tr :=
  ⟨[], by simp, by simp⟩

/-- Trace extension is transitive. -/
theorem traceExt_trans {t1 t2 t3 : List Ev} (h1 : TraceExt t1 t2) (h2 : TraceExt t2 t3) :
    TraceExt t1 t3 := by
  obtain ⟨d1, rfl, hn1⟩ := h1
  obtain ⟨d2, rfl, hn2⟩ := h2
  refine ⟨d1 ++ d2, by rw [List.append_assoc], fun k hmem => ?_⟩
  rcases List.mem_append.mp hmem with h | h
  exacts [hn1 k h, hn2 k h]

/-- Appending one non-lookup event is a trace extension. -/
theorem traceExt_snoc (tr : List Ev) (e : Ev) (he : ∀ k, e ≠ Ev.cacheGet k) :
    TraceExt tr (tr ++ [e]) :=
  ⟨[e], rfl, fun k hmem => he k (List.mem_singleton.mp hmem).symm⟩

/-- A trace extension adds no cache-lookup event. -/
theorem traceExt_mem {tr tr' : List Ev} (h : TraceExt tr tr') (k : String) :
    Ev.cacheGet k ∈ tr' ↔ Ev.cacheGet k ∈ tr := by
  obtain ⟨d, rfl, hn⟩ := h
  simp [List.mem_append, hn k]

/-- callGenerate extends the trace without cache lookups. -/
theorem callGenerate_trace (g : GenFn) (a : InternalAsset) (tr : List Ev) :
    TraceExt tr (callGenerate g a tr).2 := by
  unfold callGenerate
  cases hg : g.fn with
  | some f => exact traceExt_snoc tr _ fun k => by simp
  | none => exact traceExt_refl tr

/-- loadConfig extends the trace without cache lookups. -/
theorem loadConfig_trace (t : Transformer) (input : InternalAsset) (tr : List Ev) :
    TraceExt tr (loadConfig t input tr).2 := by
  unfold loadConfig
  cases hgc : t.getConfig with
  | some gc => exact traceExt_snoc tr _ fun k => by simp
  | none => exact traceExt_refl tr

/-- reconcileAST extends the trace without cache lookups. -/
theorem reconcileAST_trace (t : Transformer) (pg : Option GenFn) (input : InternalAsset)
    (tr : List Ev) : TraceExt tr (reconcileAST t pg input tr).2 := by
  unfold reconcileAST
  cases hast : input.ast with
  | none => cases pg <;> exact traceExt_refl tr
  | some a =>
    cases hpg : pg with
    | none => exact traceExt_refl tr
    | some g =>
      dsimp only
      by_cases hcr : (match t.canReuseAST with | some f => f a | none => false) = true
      · rw [if_pos hcr]; exact traceExt_refl tr
      · rw [if_neg hcr]
        rcases hcg : callGenerate g input tr with ⟨res, tr'⟩
        have h1 : TraceExt tr tr' := by
          have := callGenerate_trace g input tr
          rw [hcg] at this
          exact this
        cases res <;> exact h1

/-- parseIfNeeded extends the trace without cache lookups. -/
theorem parseIfNeeded_trace (t : Transformer) (cfg : Option Config) (input : InternalAsset)
    (tr : List Ev) : TraceExt tr (parseIfNeeded t cfg input tr).2 := by
  unfold parseIfNeeded
  cases hast : input.ast with
  | some a => cases t.parse <;> exact traceExt_refl tr
  | none =>
    cases hp : t.parse with
    | some p => exact traceExt_snoc tr _ fun k => by simp
    | none => exact traceExt_refl tr

/-- runTransform extends the trace without cache lookups. -/
theorem runTransform_trace (input : InternalAsset) (t : Transformer) (pg : Option GenFn)
    (tr : List Ev) : TraceExt tr (runTransform input t pg tr).2 := by
  simp only [runTransform]
  rcases hrec : reconcileAST t pg input (loadConfig t input tr).2 with ⟨res, tr'⟩
  have h1 : TraceExt tr tr' := by
    have h0 := loadConfig_trace t input tr
    have := reconcileAST_trace t pg input (loadConfig t input tr).2
    rw [hrec] at this
    exact traceExt_trans h0 this
  cases res with
  | error e => exact h1
  | ok input1 =>
    exact traceExt_trans
      (traceExt_trans h1 (parseIfNeeded_trace t (loadConfig t input tr).1 input1 tr'))
      (traceExt_snoc _ _ fun k => by simp)

/-- finalize extends the trace without cache lookups. -/
theorem finalize_trace (asset : InternalAsset) (g : GenFn) (tr : List Ev) :
    TraceExt tr (finalize asset g tr).2 := by
  unfold finalize
  cases hast : asset.ast with
  | none => exact traceExt_refl tr
  | some a =>
    rcases hcg : callGenerate g asset tr with ⟨res, tr'⟩
    have h1 : TraceExt tr tr' := by
      have := callGenerate_trace g asset tr
      rw [hcg] at this
      exact this
    cases res <;> exact h1

/-- applyPostProcess extends the trace without cache lookups. -/
theorem applyPostProcess_trace (ctx : Ctx) (step : TransformStep) (assets : List InternalAsset)
    (tr : List Ev) : TraceExt tr (applyPostProcess ctx step assets tr).2 := by
  unfold applyPostProcess
  cases hpp : step.transformer.postProcess with
  | some pp => exact traceExt_snoc tr _ fun k => by simp
  | none => exact traceExt_refl tr

/-- The per-result loop extends the trace without cache lookups, provided
the recursive runner it is given does so. -/
theorem runChildren_trace
    (rp : InternalAsset → List Transformer → List Transformer → Option CacheEntry →
      Option GenFn → List Ev → Except Err PipelineResult × List Ev)
    (ctx : Ctx)
    (hrp : ∀ inp p o ce pg tr, TraceExt tr (rp inp p o ce pg tr).2)
    (input : InternalAsset) (inputType : String) (pipeline originalPipeline : List Transformer)
    (cacheEntry : Option CacheEntry) (gen : GenFn) :
    ∀ (results : List TransformerResult) (tr : List Ev),
      TraceExt tr (runChildren rp ctx input inputType pipeline originalPipeline cacheEntry gen
        results tr).2 := by
  intro results
  induction results with
  | nil => intro tr; exact traceExt_refl tr
  | cons r rs ih =>
    intro tr
    simp only [runChildren]
    split
    · rcases hrc : runChildren rp ctx input inputType pipeline originalPipeline cacheEntry gen
        rs tr with ⟨res, tr'⟩
      have h1 : TraceExt tr tr' := by
        have := ih tr
        rw [hrc] at this
        exact this
      cases res <;> exact h1
    · split
      · rcases hfin : finalize (createChildAsset ctx input r) gen tr with ⟨res, tr'⟩
        have h1 : TraceExt tr tr' := by
          have := finalize_trace (createChildAsset ctx input r) gen tr
          rw [hfin] at this
          exact this
        cases res with
        | error e => exact h1
        | ok fin =>
          dsimp only
          rcases hrc : runChildren rp ctx input inputType pipeline originalPipeline cacheEntry
            gen rs tr' with ⟨res2, tr''⟩
          have h2 : TraceExt tr tr'' := by
            have := ih tr'
            rw [hrc] at this
            exact traceExt_trans h1 this
          cases res2 <;> exact h2
      · rcases hj : rp (createChildAsset ctx input r) pipeline.tail originalPipeline none
          (some gen) tr with ⟨res, tr'⟩
        have h1 : TraceExt tr tr' := by
          have := hrp (createChildAsset ctx input r) pipeline.tail originalPipeline none
            (some gen) tr
          rw [hj] at this
          exact this
        cases res with
        | error e => exact h1
        | ok pres =>
          dsimp only
          rcases hrc : runChildren rp ctx input inputType pipeline originalPipeline cacheEntry
            gen rs tr' with ⟨res2, tr''⟩
          have h2 : TraceExt tr tr'' := by
            have := ih tr'
            rw [hrc] at this
            exact traceExt_trans h1 this
          cases res2 <;> exact h2
      · rcases hj : rp (createChildAsset ctx input r)
          (nextPipelineFor ctx originalPipeline inputType input r)
          (nextPipelineFor ctx originalPipeline inputType input r) none (some gen) tr
          with ⟨res, tr'⟩
        have h1 : TraceExt tr tr' := by
          have := hrp (createChildAsset ctx input r)
            (nextPipelineFor ctx originalPipeline inputType input r)
            (nextPipelineFor ctx originalPipeline inputType input r) none (some gen) tr
          rw [hj] at this
          exact this
        cases res with
        | error e => exact h1
        | ok pres =>
          dsimp only
          rcases hrc : runChildren rp ctx input inputType pipeline originalPipeline cacheEntry
            gen rs tr' with ⟨res2, tr''⟩
          have h2 : TraceExt tr tr'' := by
            have := ih tr'
            rw [hrc] at this
            exact traceExt_trans h1 this
          cases res2 <;> exact h2

/-- runPipeline extends the trace without cache lookups. -/
theorem runPipeline_trace (ctx : Ctx) :
    ∀ (fuel : Nat) (input : InternalAsset) (pipeline originalPipeline : List Transformer)
      (cacheEntry : Option CacheEntry) (previousGenerate : Option GenFn) (tr : List Ev),
      TraceExt tr (runPipeline ctx fuel input pipeline originalPipeline cacheEntry
        previousGenerate tr).2 := by
  intro fuel
  induction fuel with
  | zero => intro input pipeline orig ce pg tr; exact traceExt_refl tr
  | succ fuel ih =>
    intro input pipeline orig ce pg tr
    cases pipeline with
    | nil => exact traceExt_refl tr
    | cons t rest =>
      simp only [runPipeline]
      rcases hrt : runTransform input t pg tr with ⟨res, tr'⟩
      have h1 : TraceExt tr tr' := by
        have := runTransform_trace input t pg tr
        rw [hrt] at this
        exact this
      cases res with
      | error e => exact h1
      | ok step =>
        dsimp only
        rcases hrc : runChildren (runPipeline ctx fuel) ctx step.input input.type (t :: rest)
          orig ce step.generate step.results tr' with ⟨res2, tr''⟩
        have h2 : TraceExt tr tr'' := by
          have := runChildren_trace (runPipeline ctx fuel) ctx
            (fun inp p o ce' pg' tr0 => ih inp p o ce' pg' tr0) step.input input.type
            (t :: rest) orig ce step.generate step.results tr'
          rw [hrc] at this
          exact traceExt_trans h1 this
        cases res2 with
        | error e => exact h2
        | ok assets => exact traceExt_trans h2 (applyPostProcess_trace ctx step assets tr'')

/-- transformFresh extends the trace without cache lookups (the cache-store
event it appends is not a lookup). -/
theorem transformFresh_trace (ctx : Ctx) (fuel : Nat) (cache : CacheState)
    (req : AssetRequest) (summary : Summary) (ce : Option CacheEntry) (tr : List Ev) :
    TraceExt tr (transformFresh ctx fuel cache req summary ce tr).2 := by
  simp only [transformFresh]
  rcases hrp : runPipeline ctx fuel (mkInputAsset req summary)
    (ctx.getTransformers req.filePath) (ctx.getTransformers req.filePath) ce none tr
    with ⟨res, tr'⟩
  have h1 : TraceExt tr tr' := by
    have := runPipeline_trace ctx fuel (mkInputAsset req summary)
      (ctx.getTransformers req.filePath) (ctx.getTransformers req.filePath) ce none tr
    rw [hrp] at this
    exact this
  cases res with
  | error e => exact h1
  | ok pr => exact traceExt_trans h1 (traceExt_snoc _ _ fun k => by simp)

/-- The entry and trace of transformFresh do not depend on the prior cache
contents; only the stored-into cache differs. -/
theorem transformFresh_frame (ctx : Ctx) (fuel : Nat) (c1 c2 : CacheState)
    (req : AssetRequest) (s : Summary) (ce : Option CacheEntry) (tr : List Ev) :
    Except.map Prod.fst (transformFresh ctx fuel c1 req s ce tr).1 =
      Except.map Prod.fst (transformFresh ctx fuel c2 req s ce tr).1 ∧
    (transformFresh ctx fuel c1 req s ce tr).2 = (transformFresh ctx fuel c2 req s ce tr).2 := by
  rcases hrp : runPipeline ctx fuel (mkInputAsset req s) (ctx.getTransformers req.filePath)
    (ctx.getTransformers req.filePath) ce none tr with ⟨res, tr'⟩
  cases res <;> simp [transformFresh, hrp, Except.map]

/-- A successful runTransform hands back the transformer it ran and the
config produced by its config-load phase. -/
theorem runTransform_transformer (input : InternalAsset) (t : Transformer)
    (pg : Option GenFn) (tr : List Ev) (step : TransformStep) (tr1 : List Ev)
    (h : runTransform input t pg tr = (Except.ok step, tr1)) : step.transformer = t := by
  simp only [runTransform] at h
  split at h
  · simp at h
  · rename_i input1 tr' heq
    injection h with h1 h2
    injection h1 with h3
    rw [← h3]

/-- Whatever entry a successful transformFresh returns is exactly what it
stored into the cache under the request fingerprint. -/
theorem transformFresh_set (ctx : Ctx) (fuel : Nat) (cache : CacheState) (req : AssetRequest)
    (summary : Summary) (ce : Option CacheEntry) (tr : List Ev) (e : CacheEntry)
    (c' : CacheState)
    (h : (transformFresh ctx fuel cache req summary ce tr).1 = Except.ok (e, c')) :
    c' = Cache.set cache (reqCacheKey ctx req) e := by
  simp only [transformFresh] at h
  split at h
  · simp at h
  · rename_i pr tr' heq
    simp only [Except.ok.injEq, Prod.mk.injEq] at h
    rw [← h.2, h.1]

/-! Claim theorems. -/

/-- Claim C2: for every child result of runPipeline, the jump branch is
taken iff the result's type differs from the input asset's type and the
pipeline recomputed for a path with the new extension is not shallow-equal
to the original pipeline; otherwise the child stays on the original
pipeline, finalized when exactly one transformer remains and recursed on
the tail otherwise. -/
theorem pipelineJump_iff (ctx : Ctx) (originalPipeline pipeline : List Transformer)
    (inputType : String) (input : InternalAsset) (r : TransformerResult) :
    (childDecision ctx originalPipeline pipeline inputType input r = Decision.jump ↔
      (r.type ≠ inputType ∧
        isEqualPipeline originalPipeline (ctx.getTransformers (nextFilePath input r.type)) =
          false)) ∧
    (childDecision ctx originalPipeline pipeline inputType input r ≠ Decision.jump →
      childDecision ctx originalPipeline pipeline inputType input r =
        if pipeline.length = 1 then Decision.finalizeChild else Decision.tailRecurse) := by
  unfold childDecision nextPipelineFor
  by_cases hty : r.type ≠ inputType
  · rw [if_pos hty]
    by_cases he :
        isEqualPipeline originalPipeline (ctx.getTransformers (nextFilePath input r.type)) = true
    · rw [if_pos he]
      refine ⟨⟨fun hj => ?_, fun hrhs => ?_⟩, fun _ => rfl⟩
      · exfalso; revert hj; split <;> simp
      · rw [he] at hrhs; exact absurd hrhs.2 (by simp)
    · have he' :
          isEqualPipeline originalPipeline (ctx.getTransformers (nextFilePath input r.type)) =
            false := by
        revert he
        cases isEqualPipeline originalPipeline
          (ctx.getTransformers (nextFilePath input r.type)) <;> simp
      rw [if_neg he]
      exact ⟨⟨fun _ => ⟨hty, he'⟩, fun _ => rfl⟩, fun hn => absurd rfl hn⟩
  · rw [if_neg hty]
    rw [if_pos (isEqualPipeline_refl originalPipeline)]
    refine ⟨⟨fun hj => ?_, fun hrhs => absurd hrhs.1 hty⟩, fun _ => rfl⟩
    exfalso; revert hj; split <;> simp

/-- Witness for C2 at a concrete stay case: a js result on a js input with
a two-transformer pipeline recurses on the tail. -/
theorem pipelineJump_iff_witness :
    childDecision ctxNil [tNil, tJs] [tNil, tJs] "js" assetAst resJs ≠ Decision.jump ∧
    childDecision ctxNil [tNil, tJs] [tNil, tJs] "js" assetAst resJs =
      (if ([tNil, tJs] : List Transformer).length = 1 then Decision.finalizeChild
       else Decision.tailRecurse) :=
  ⟨by decide, (pipelineJump_iff ctxNil [tNil, tJs] [tNil, tJs] "js" assetAst resJs).2 (by decide)⟩

/-- Claim C7 (amended): for a file request, summarizeRequest buffers the
complete contents when the total size is at most 5000000 bytes (the
source's BUFFER_LIMIT, 5 MB, not 5 MiB) and falls back to a fresh read
stream from 5000001 bytes on; the returned hash and size always reflect
the complete file contents. -/
theorem buffer_threshold (ctx : Ctx) (req : AssetRequest) (h : req.code = none) :
    ((summarizeRequest ctx req).size ≤ 5000000 →
      (summarizeRequest ctx req).content = Blob.buffer (strConcat (ctx.files req.filePath))) ∧
    (5000001 ≤ (summarizeRequest ctx req).size →
      (summarizeRequest ctx req).content = Blob.stream req.filePath) ∧
    (summarizeRequest ctx req).hash = ctx.md5String (strConcat (ctx.files req.filePath)) ∧
    (summarizeRequest ctx req).size = totalLen (ctx.files req.filePath) := by
  rw [summarizeRequest_file ctx req h]
  dsimp only
  refine ⟨fun hs => ?_, fun hs => ?_, rfl, rfl⟩
  · rw [if_pos (by simpa [BUFFER_LIMIT] using hs)]
  · rw [if_neg (by simp only [BUFFER_LIMIT]; omega)]

/-- Witness for C7: the three-byte file a.js stays buffered with its full
contents, hash and size. -/
theorem buffer_threshold_witness :
    reqFile.code = none ∧ (summarizeRequest ctxNil reqFile).size ≤ 5000000 ∧
    (summarizeRequest ctxNil reqFile).content =
      Blob.buffer (strConcat (ctxNil.files reqFile.filePath)) :=
  ⟨rfl, by decide, (buffer_threshold ctxNil reqFile rfl).1 (by decide)⟩

/-- Counterexample for C7 as stated: a file of exactly 5 MiB (5242880
bytes, within the claimed at-most-5-MiB buffered range) is replaced by a
read stream, because the source's threshold is 5000000 bytes. -/
theorem buffer_limit_cex :
    (summarizeRequest ctxBig reqBig).size = 5242880 ∧
    (summarizeRequest ctxBig reqBig).size ≤ 5 * 1024 * 1024 ∧
    (summarizeRequest ctxBig reqBig).content = Blob.stream "big.bin" := by
  have hlen : bigChunk.length = 5242880 := by
    show (String.mk (List.replicate 5242880 'x')).length = 5242880
    rw [String.length_mk, List.length_replicate]
  have hone : ∀ s : String, totalLen [s] = s.length := fun s => by simp [totalLen]
  have htot : totalLen (ctxBig.files reqBig.filePath) = 5242880 := by
    rw [show ctxBig.files reqBig.filePath = [bigChunk] from rfl, hone, hlen]
  rw [summarizeRequest_file ctxBig reqBig rfl]
  dsimp only
  rw [htot]
  refine ⟨rfl, by omega, ?_⟩
  rw [if_neg (by simp only [BUFFER_LIMIT]; omega)]
  rfl

/-- Claim C8: whenever an asset that still carries an AST must be
materialized into code — at finalization, or in runTransform because the
next transformer cannot consume the AST — and the generate closure carries
no generate hook, the run fails with the TransformerMissingGenerate
error. -/
theorem missing_generate_error (g : GenFn) (asset : InternalAsset) (a : AST) (tr : List Ev) :
    (g.fn = none → asset.ast = some a →
      finalize asset g tr = (Except.error Err.transformerMissingGenerate, tr)) ∧
    (∀ (t : Transformer) (input : InternalAsset), g.fn = none → input.ast = some a →
      (match t.canReuseAST with | some f => f a | none => false) = false →
      (runTransform input t (some g) tr).1 = Except.error Err.transformerMissingGenerate) := by
  constructor
  · intro hg ha
    unfold finalize callGenerate
    rw [ha, hg]
  · intro t input hg ha hcr
    simp only [runTransform, reconcileAST, callGenerate, ha, hg, hcr]
    simp

/-- Witness for C8: finalize and runTransform both fail with
TransformerMissingGenerate on an AST-carrying asset when the generate
closure has no hook. -/
theorem missing_generate_error_witness :
    (genNone.fn = none ∧ assetAst.ast = some 7 ∧
      finalize assetAst genNone [] = (Except.error Err.transformerMissingGenerate, [])) ∧
    (runTransform assetAst tNil (some genNone) []).1 =
      Except.error Err.transformerMissingGenerate :=
  ⟨⟨rfl, rfl, (missing_generate_error genNone assetAst 7 []).1 rfl rfl⟩,
   (missing_generate_error genNone assetAst 7 []).2 tNil assetAst rfl rfl (by decide)⟩

/-- Claim C9: under the precondition that the resolver always returns a
non-empty transformer list, every pipeline reaching runPipeline — the
initial one, the tail taken when more than one transformer remains, and
every jumped pipeline — is non-empty, so the head access never raises the
out-of-bounds empty-pipeline error; on an empty pipeline the head access
is the out-of-bounds error. -/
theorem pipeline_nonempty_safe (ctx : Ctx) (hres : ∀ q, ctx.getTransformers q ≠ []) :
    (∀ (fuel : Nat) (input : InternalAsset) (pipeline originalPipeline : List Transformer)
      (cacheEntry : Option CacheEntry) (previousGenerate : Option GenFn) (tr : List Ev),
      pipeline ≠ [] →
      (runPipeline ctx fuel input pipeline originalPipeline cacheEntry previousGenerate
        tr).1 ≠ Except.error Err.emptyPipeline) ∧
    (∀ (fuel : Nat) (input : InternalAsset) (originalPipeline : List Transformer)
      (cacheEntry : Option CacheEntry) (previousGenerate : Option GenFn) (tr : List Ev),
      runPipeline ctx (fuel + 1) input [] originalPipeline cacheEntry previousGenerate tr =
        (Except.error Err.emptyPipeline, tr)) :=
  ⟨runPipeline_no_empty ctx hres, fun _ _ _ _ _ _ => rfl⟩

/-- Witness for C9: with a resolver always returning the singleton pipeline
the concrete run is free of the empty-pipeline error, while the empty
pipeline itself errs. -/
theorem pipeline_nonempty_safe_witness :
    (∀ q, ctxNil.getTransformers q ≠ []) ∧ ([tNil] ≠ ([] : List Transformer)) ∧
    (runPipeline ctxNil 2 assetAst [tNil] [tNil] none none []).1 ≠
      Except.error Err.emptyPipeline ∧
    runPipeline ctxNil 2 assetAst [] [tNil] none none [] =
      (Except.error Err.emptyPipeline, []) :=
  ⟨fun _ => List.cons_ne_nil _ _, List.cons_ne_nil _ _,
   (pipeline_nonempty_safe ctxNil fun _ => List.cons_ne_nil _ _).1 2 assetAst [tNil] [tNil]
     none none [] (List.cons_ne_nil _ _),
   (pipeline_nonempty_safe ctxNil fun _ => List.cons_ne_nil _ _).2 1 assetAst [tNil]
     none none []⟩

/-- Claim C3: in every runTransform step, when the input carries an AST
the transformer cannot reuse (canReuseAST absent or false) and a
previousGenerate with an available hook exists, previousGenerate runs and
its output overwrites content and map while the AST is dropped, after
which parse (if the transformer exposes it) supplies the new AST; when the
transformer can reuse the AST it is kept unchanged and neither
previousGenerate nor parse runs. -/
theorem ast_reconciliation (t : Transformer) (input : InternalAsset) (g : GenFn) :
    (∀ (a : AST) (gf : InternalAsset → GenerateOutput),
      input.ast = some a →
      (match t.canReuseAST with | some f => f a | none => false) = false →
      g.fn = some gf →
      ∃ (step : TransformStep) (tr' : List Ev),
        runTransform input t (some g) [] = (Except.ok step, tr') ∧
        step.input.content = Blob.buffer (gf input).code ∧
        step.input.map = (gf input).map ∧
        (t.parse = none → step.input.ast = none) ∧
        (∀ p, t.parse = some p →
          step.input.ast = some (p
            { input with
                content := Blob.buffer (gf input).code
                map := (gf input).map
                ast := none }
            (loadConfig t input []).1)) ∧
        Ev.generateHook g.tid ∈ tr' ∧
        (t.parse ≠ none → Ev.parseHook t.id ∈ tr')) ∧
    (∀ (a : AST) (f : AST → Bool),
      input.ast = some a → t.canReuseAST = some f → f a = true →
      ∃ (step : TransformStep) (tr' : List Ev),
        runTransform input t (some g) [] = (Except.ok step, tr') ∧
        step.input = input ∧
        (∀ tid, Ev.generateHook tid ∉ tr') ∧ (∀ tid, Ev.parseHook tid ∉ tr')) := by
  constructor
  · intro a gf ha hcr hg
    have hrec : ∀ tr0, reconcileAST t (some g) input tr0 =
        (Except.ok
          { input with
              content := Blob.buffer (gf input).code
              map := (gf input).map
              ast := none },
          tr0 ++ [Ev.generateHook g.tid]) := by
      intro tr0
      unfold reconcileAST callGenerate
      rw [ha]
      simp [hcr, hg]
    simp only [runTransform]
    rw [hrec]
    cases hp : t.parse with
    | none =>
      refine ⟨_, _, rfl, ?_, ?_, ?_, ?_, ?_, ?_⟩ <;> simp [parseIfNeeded, hp]
    | some p =>
      refine ⟨_, _, rfl, ?_, ?_, ?_, ?_, ?_, ?_⟩ <;> simp [parseIfNeeded, hp]
  · intro a f ha hf hfa
    have hrec : ∀ tr0, reconcileAST t (some g) input tr0 = (Except.ok input, tr0) := by
      intro tr0
      unfold reconcileAST
      rw [ha]
      simp [hf, hfa]
    have hpar : ∀ cfg tr1, parseIfNeeded t cfg input tr1 = (input, tr1) := by
      intro cfg tr1
      unfold parseIfNeeded
      rw [ha]
    simp only [runTransform]
    rw [hrec]
    dsimp only
    rw [hpar]
    refine ⟨_, _, rfl, rfl, ?_, ?_⟩ <;>
      cases hgc : t.getConfig <;> simp [loadConfig, hgc]

/-- Witness for C3: the non-reusable case forces genSome's output into the
asset and reparses through tParse; the reusable case keeps assetAst intact
under tReuse with no generate or parse hook events. -/
theorem ast_reconciliation_witness :
    (∃ (step : TransformStep) (tr' : List Ev),
      runTransform assetAst tParse (some genSome) [] = (Except.ok step, tr') ∧
      step.input.content = Blob.buffer "gen" ∧
      step.input.map = some "m" ∧
      (tParse.parse = none → step.input.ast = none) ∧
      (∀ p, tParse.parse = some p →
        step.input.ast = some (p
          { assetAst with
              content := Blob.buffer "gen"
              map := some "m"
              ast := none }
          (loadConfig tParse assetAst []).1)) ∧
      Ev.generateHook 9 ∈ tr' ∧
      (tParse.parse ≠ none → Ev.parseHook 3 ∈ tr')) ∧
    (∃ (step : TransformStep) (tr' : List Ev),
      runTransform assetAst tReuse (some genSome) [] = (Except.ok step, tr') ∧
      step.input = assetAst ∧
      (∀ tid, Ev.generateHook tid ∉ tr') ∧ (∀ tid, Ev.parseHook tid ∉ tr')) :=
  ⟨(ast_reconciliation tParse assetAst genSome).1 7
      (fun _ => { code := "gen", map := some "m" }) rfl rfl rfl,
   (ast_reconciliation tReuse assetAst genSome).2 7 (fun _ => true) rfl rfl rfl⟩

/-- Claim C10: every asset returned by an asset_request run has stats.time
set to the elapsed wall time of that run (the difference of the two
Date.now readings around the transformation). -/
theorem assets_stats_time (renv : AssetReq.RunEnv) (input : AssetReq.AssetRequestInput)
    (a : AssetReq.FarmAsset) (ha : a ∈ (AssetReq.run renv input).1) :
    a.stats.time = renv.endTime - renv.startTime := by
  simp only [AssetReq.run, List.mem_map] at ha
  obtain ⟨b, hb, rfl⟩ := ha
  rfl

/-- Witness for C10: the concrete driver run stamps its asset with the
elapsed time 15. -/
theorem assets_stats_time_witness :
    ({ id := "a1", stats := { time := 15, size := 3 }, includedFiles := ["inc.js"] } :
        AssetReq.FarmAsset) ∈ (AssetReq.run renvFix inputFix).1 ∧
    ({ id := "a1", stats := { time := 15, size := 3 }, includedFiles := ["inc.js"] } :
        AssetReq.FarmAsset).stats.time = renvFix.endTime - renvFix.startTime :=
  ⟨by decide, assets_stats_time renvFix inputFix _ (by decide)⟩

/-- Claim C6: at the end of every runPipeline invocation, if the head
transformer exposes postProcess, the returned record's assets are the
postProcess output (turned into child assets) and initialAssets is the
pre-postProcess asset set; with no postProcess hook, assets are the
collected child assets and initialAssets is absent. -/
theorem postProcess_shape (ctx : Ctx) (fuel : Nat) (input : InternalAsset)
    (t : Transformer) (rest originalPipeline : List Transformer)
    (cacheEntry : Option CacheEntry) (previousGenerate : Option GenFn)
    (pr : PipelineResult) (tr : List Ev)
    (h : (runPipeline ctx (fuel + 1) input (t :: rest) originalPipeline cacheEntry
      previousGenerate tr).1 = Except.ok pr) :
    (t.postProcess = none → pr.initialAssets = none ∧
      ∃ (step : TransformStep) (tr1 tr2 : List Ev),
        runTransform input t previousGenerate tr = (Except.ok step, tr1) ∧
        runChildren (runPipeline ctx fuel) ctx step.input input.type (t :: rest)
          originalPipeline cacheEntry step.generate step.results tr1 =
          (Except.ok pr.assets, tr2)) ∧
    (∀ pp, t.postProcess = some pp →
      ∃ (step : TransformStep) (children : List InternalAsset) (tr1 tr2 : List Ev),
        runTransform input t previousGenerate tr = (Except.ok step, tr1) ∧
        runChildren (runPipeline ctx fuel) ctx step.input input.type (t :: rest)
          originalPipeline cacheEntry step.generate step.results tr1 =
          (Except.ok children, tr2) ∧
        pr.initialAssets = some children ∧
        pr.assets = (pp children step.config).map (createChildAsset ctx step.input)) := by
  simp only [runPipeline] at h
  split at h
  · simp at h
  · rename_i step tr1 heq1
    split at h
    · simp at h
    · rename_i children tr2 heq2
      have hT := runTransform_transformer _ _ _ _ _ _ heq1
      constructor
      · intro hpp
        have hap : applyPostProcess ctx step children tr2 = (none, tr2) := by
          unfold applyPostProcess
          rw [hT, hpp]
        rw [hap] at h
        have hpr : pr = { assets := children, initialAssets := none } := by
          simpa using h.symm
        refine ⟨by rw [hpr], step, tr1, tr2, heq1, ?_⟩
        rw [hpr]
        exact heq2
      · intro pp hpp
        have hap : applyPostProcess ctx step children tr2 =
            (some ((pp children step.config).map (createChildAsset ctx step.input)),
              tr2 ++ [Ev.postProcessHook step.transformer.id]) := by
          unfold applyPostProcess
          rw [hT, hpp]
        rw [hap] at h
        have hpr : pr =
            { assets := (pp children step.config).map (createChildAsset ctx step.input),
              initialAssets := some children } := by
          simpa using h.symm
        exact ⟨step, children, tr1, tr2, heq1, heq2, by rw [hpr], by rw [hpr]⟩

/-- Witness for C6: the trivial pipeline without postProcess yields no
initialAssets and its assets are exactly the collected children. -/
theorem postProcess_shape_witness :
    tNil.postProcess = none ∧
    ({ assets := [], initialAssets := none } : PipelineResult).initialAssets = none ∧
    ∃ (step : TransformStep) (tr1 tr2 : List Ev),
      runTransform inputNilFix tNil none [] = (Except.ok step, tr1) ∧
      runChildren (runPipeline ctxNil 0) ctxNil step.input inputNilFix.type [tNil] [tNil]
        none step.generate step.results tr1 =
        (Except.ok ({ assets := [], initialAssets := none } : PipelineResult).assets, tr2) :=
  ⟨rfl,
   (postProcess_shape ctxNil 0 inputNilFix tNil [] [tNil] none none
     { assets := [], initialAssets := none } [] (by decide)).1 rfl⟩

/-- Claim C1: when the options do not opt out of the cache, the request
carries no inline code, a cache entry is found under the request
fingerprint, its hash equals the re-summarized content hash and all its
assets' connected files still re-hash to their recorded hashes, transform
returns that cached entry unchanged, leaves the cache untouched, and
invokes zero transformer hooks. -/
theorem cacheHit_no_hooks (ctx : Ctx) (fuel : Nat) (cache : CacheState) (req : AssetRequest)
    (e : CacheEntry)
    (h1 : ctx.options.cache ≠ some false) (h2 : req.code = none)
    (h3 : Cache.get cache (reqCacheKey ctx req) = some e)
    (h4 : e.hash = (summarizeRequest ctx req).hash)
    (h5 : checkCachedAssets ctx e.assets = true) :
    transform ctx fuel cache req [] =
      (Except.ok (e, cache), [Ev.cacheGet (reqCacheKey ctx req)]) ∧
    ∀ ev ∈ (transform ctx fuel cache req []).2, Ev.isHook ev = false := by
  have hmain : transform ctx fuel cache req [] =
      (Except.ok (e, cache), [Ev.cacheGet (reqCacheKey ctx req)]) := by
    simp only [transform]
    rw [if_pos ⟨h1, h2⟩, h3]
    simp only [List.nil_append]
    rw [if_pos ⟨h4, h5⟩]
  refine ⟨hmain, ?_⟩
  rw [hmain]
  intro ev hev
  simp only [List.mem_singleton] at hev
  subst hev
  rfl

/-- Witness for C1: the concrete cache hit for reqFile under ctxHit returns
entryHit with only the cache-lookup event in the trace. -/
theorem cacheHit_no_hooks_witness :
    (ctxHit.options.cache ≠ some false) ∧ (reqFile.code = none) ∧
    (Cache.get cacheHitState (reqCacheKey ctxHit reqFile) = some entryHit) ∧
    (entryHit.hash = (summarizeRequest ctxHit reqFile).hash) ∧
    (checkCachedAssets ctxHit entryHit.assets = true) ∧
    transform ctxHit 3 cacheHitState reqFile [] =
      (Except.ok (entryHit, cacheHitState), [Ev.cacheGet (reqCacheKey ctxHit reqFile)]) :=
  ⟨by decide, rfl, by decide, by decide, by decide,
   (cacheHit_no_hooks ctxHit 3 cacheHitState reqFile entryHit (by decide) rfl (by decide)
     (by decide) (by decide)).1⟩

/-- Claim C4 (amended): every successful transform run that is not served
from the cache — including every inline-code run — persists its resulting
entry under the fingerprint of filePath and env; only a valid cache hit
(possible only for file requests) leaves the cache unchanged. -/
theorem persisted_under_reqCacheKey (ctx : Ctx) (fuel : Nat) (cache : CacheState)
    (req : AssetRequest) (e : CacheEntry) (c' : CacheState)
    (h : (transform ctx fuel cache req []).1 = Except.ok (e, c')) :
    (req.code ≠ none → c' = Cache.set cache (reqCacheKey ctx req) e) ∧
    (c' = Cache.set cache (reqCacheKey ctx req) e ∨ (req.code = none ∧ c' = cache)) := by
  simp only [transform] at h
  by_cases hcond : (ctx.options.cache ≠ some false ∧ req.code = none)
  · rw [if_pos hcond] at h
    cases hget : Cache.get cache (reqCacheKey ctx req) with
    | some e0 =>
      rw [hget] at h
      dsimp only at h
      by_cases hhit :
          (e0.hash = (summarizeRequest ctx req).hash ∧ checkCachedAssets ctx e0.assets = true)
      · rw [if_pos hhit] at h
        simp only [Except.ok.injEq, Prod.mk.injEq] at h
        exact ⟨fun hc => absurd hcond.2 hc, Or.inr ⟨hcond.2, h.2.symm⟩⟩
      · rw [if_neg hhit] at h
        have := transformFresh_set _ _ _ _ _ _ _ _ _ h
        exact ⟨fun _ => this, Or.inl this⟩
    | none =>
      rw [hget] at h
      dsimp only at h
      have := transformFresh_set _ _ _ _ _ _ _ _ _ h
      exact ⟨fun _ => this, Or.inl this⟩
  · rw [if_neg hcond] at h
    have := transformFresh_set _ _ _ _ _ _ _ _ _ h
    exact ⟨fun _ => this, Or.inl this⟩

/-- Witness for C4: the concrete inline run stores its entry under the
request fingerprint. -/
theorem persisted_under_reqCacheKey_witness :
    (transform ctxNil 3 [] reqInline []).1 = Except.ok (entryInlineNil, cacheAfterInline) ∧
    reqInline.code ≠ none ∧
    cacheAfterInline = Cache.set [] (reqCacheKey ctxNil reqInline) entryInlineNil :=
  ⟨by decide, by decide,
   (persisted_under_reqCacheKey ctxNil 3 [] reqInline entryInlineNil cacheAfterInline
     (by decide)).1 (by decide)⟩

/-- Claim C5: a cache lookup happens exactly when the options do not opt
out and the request carries no inline code; for inline-code requests, and
whenever options.cache is false, no lookup event occurs and the returned
entry and event trace are independent of the prior cache contents, so a
previously cached entry is never returned. -/
theorem no_cache_lookup_optout (ctx : Ctx) (fuel : Nat) (cache : CacheState)
    (req : AssetRequest) :
    (Ev.cacheGet (reqCacheKey ctx req) ∈ (transform ctx fuel cache req []).2 ↔
      (ctx.options.cache ≠ some false ∧ req.code = none)) ∧
    ((req.code ≠ none ∨ ctx.options.cache = some false) → ∀ cache2 : CacheState,
      Except.map Prod.fst (transform ctx fuel cache req []).1 =
        Except.map Prod.fst (transform ctx fuel cache2 req []).1 ∧
      (transform ctx fuel cache req []).2 = (transform ctx fuel cache2 req []).2) := by
  have hswitch : ∀ (c : CacheState), ¬(ctx.options.cache ≠ some false ∧ req.code = none) →
      transform ctx fuel c req [] =
        transformFresh ctx fuel c req (summarizeRequest ctx req) none [] := by
    intro c hc
    simp only [transform]
    rw [if_neg hc]
  constructor
  · constructor
    · intro hmem
      by_contra hcond
      rw [hswitch cache hcond] at hmem
      have hno := (traceExt_mem
        (transformFresh_trace ctx fuel cache req (summarizeRequest ctx req) none []) _).mp hmem
      simp at hno
    · rintro ⟨h1, h2⟩
      simp only [transform]
      rw [if_pos ⟨h1, h2⟩]
      cases hget : Cache.get cache (reqCacheKey ctx req) with
      | some e =>
        dsimp only
        by_cases hhit :
            (e.hash = (summarizeRequest ctx req).hash ∧ checkCachedAssets ctx e.assets = true)
        · rw [if_pos hhit]; simp
        · rw [if_neg hhit]
          exact (traceExt_mem
            (transformFresh_trace ctx fuel cache req (summarizeRequest ctx req) (some e)
              ([] ++ [Ev.cacheGet (reqCacheKey ctx req)])) _).mpr (by simp)
      | none =>
        dsimp only
        exact (traceExt_mem
          (transformFresh_trace ctx fuel cache req (summarizeRequest ctx req) none
            ([] ++ [Ev.cacheGet (reqCacheKey ctx req)])) _).mpr (by simp)
  · intro hopt cache2
    have hc : ¬(ctx.options.cache ≠ some false ∧ req.code = none) := by
      rcases hopt with h | h
      · exact fun hc => h hc.2
      · exact fun hc => hc.1 h
    rw [hswitch cache hc, hswitch cache2 hc]
    exact transformFresh_frame ctx fuel cache cache2 req (summarizeRequest ctx req) none []

/-- Witness for C5: the inline request's result entry and trace are the
same whether the cache is empty or already holds an entry. -/
theorem no_cache_lookup_optout_witness :
    Except.map Prod.fst (transform ctxNil 3 [] reqInline []).1 =
      Except.map Prod.fst (transform ctxNil 3 cacheHitState reqInline []).1 ∧
    (transform ctxNil 3 [] reqInline []).2 =
      (transform ctxNil 3 cacheHitState reqInline []).2 :=
  (no_cache_lookup_optout ctxNil 3 [] reqInline).2 (Or.inl (by decide)) cacheHitState

/-- Counterexample for C4 as stated: the inline-code request reqInline
(code is y=2, not null) succeeds and leaves the cache changed — the entry
is persisted — contradicting the claim that inline-code requests leave the
persistent cache unchanged. -/
theorem inline_persisted_cex :
    reqInline.code ≠ none ∧
    (transform ctxNil 3 [] reqInline []).1.isOk = true ∧
    Except.map Prod.snd (transform ctxNil 3 [] reqInline []).1 ≠
      Except.ok ([] : CacheState) := by
  exact ⟨by decide, by decide, by decide⟩

end Parcel
